import Mathlib

/-!
Verification development for the TuneFlow music recommendation system
(React client and FastAPI recommender backend).

The client helpers (sanitizeSong, buildSongPayload, the GlobalPlayer and
RecommendationCard playback guards, the SearchBar empty-query guard) are
embedded directly from the JavaScript sources in client/src.  JavaScript
values are modelled by the inductive type JsVal (undefined, null, strings,
numbers, booleans, arrays) with JavaScript truthiness, and a song object is
modelled as a total function from keys to JsVal, absent keys mapping to
undefined, exactly as property access behaves in JavaScript.

The backend recommender module (server/app/recommender.py) is listed in the
README project structure but its file is not part of the source tree; the
definitions for search, track resolution, the nearest-neighbour query and
the min-max normalizer are therefore modelled from the specification text
and are marked as such in their doc comments.
-/

/-! ## JavaScript value model -/

/-- A JavaScript runtime value, restricted to the shapes the client code
manipulates: undefined, null, strings, (integer) numbers, booleans and
arrays. -/
inductive JsVal where
  | undef
  | null
  | str (s : String)
  | num (n : Int)
  | bool (b : Bool)
  | arr (elems : List JsVal)

/-- JavaScript truthiness: undefined, null, the empty string, 0 and false
are falsy; every other value (including any array) is truthy. -/
def JsVal.truthy : JsVal → Bool
  | .undef => false
  | .null => false
  | .str s => !(s == "")
  | .num n => !(n == 0)
  | .bool b => b
  | .arr _ => true

/-- Whether a value is a string. -/
def JsVal.isStr : JsVal → Bool
  | .str _ => true
  | _ => false

/-- Whether a value is an array (Array.isArray). -/
def JsVal.isArr : JsVal → Bool
  | .arr _ => true
  | _ => false

/-- The JavaScript expression a or-else b: a when a is truthy, else b. -/
def jsOr (a b : JsVal) : JsVal :=
  if a.truthy then a else b

/-- The JavaScript nullish coalescing of a and b: b when a is undefined or
null, else a. -/
def jsNullish (a b : JsVal) : JsVal :=
  match a with
  | .undef => b
  | .null => b
  | v => v

/-- A JavaScript song object, modelled as a total map from property names
to values; absent properties read as undefined, as in JavaScript. -/
def Song : Type := String → JsVal

mutual

/-- Element conversion used by JavaScript Array.prototype.join: undefined
and null become the empty string, strings stay, numbers and booleans are
stringified, nested arrays are joined with a comma. -/
def JsVal.toJoinStr : JsVal → String
  | .undef => ""
  | .null => ""
  | .str s => s
  | .num n => toString n
  | .bool b => if b then "true" else "false"
  | .arr xs => joinComma xs

/-- Comma join of a list of values, the default Array.prototype.join. -/
def joinComma : List JsVal → String
  | [] => ""
  | [x] => x.toJoinStr
  | x :: y :: rest => x.toJoinStr ++ "," ++ joinComma (y :: rest)

end

/-- Array.prototype.join with an explicit separator. -/
def joinWith (sep : String) : List JsVal → String
  | [] => ""
  | [x] => x.toJoinStr
  | x :: y :: rest => x.toJoinStr ++ sep ++ joinWith sep (y :: rest)

/-! ## Client helpers, from client/src/api/api.js -/

/-- DEFAULT_ARTWORK fallback constant in client/src/api/api.js. -/
def DEFAULT_ARTWORK : String := "/placeholder.png"

/-- DEFAULT_PREVIEW fallback constant in client/src/api/api.js. -/
def DEFAULT_PREVIEW : JsVal := JsVal.null

/-- sanitizeSong from client/src/api/api.js: spreads the input song and
overrides artwork with (song.artwork or-else DEFAULT_ARTWORK) and preview
with (song.preview nullish-coalesce DEFAULT_PREVIEW). -/
def sanitizeSong (song : Song) : Song := fun k =>
  if k == "artwork" then jsOr (song "artwork") (JsVal.str DEFAULT_ARTWORK)
  else if k == "preview" then jsNullish (song "preview") DEFAULT_PREVIEW
  else song k

/-- The fixed-shape payload produced by buildSongPayload in
client/src/api/api.js. -/
structure SongPayload where
  id : JsVal
  name : JsVal
  artists : JsVal
  artwork : JsVal
  preview : JsVal
  youtubeUrl : JsVal
  cluster_mood : JsVal
  duration : JsVal
  album : JsVal
  release_year : JsVal
  source : JsVal

/-- buildSongPayload from client/src/api/api.js: artists is joined with a
comma-space separator when it is an array, else falls back through or-else
to the empty string; all other fields fall back with or-else to null or the
empty string, except release_year which uses nullish coalescing. -/
def buildSongPayload (song : Song) : SongPayload :=
  let artistsText : JsVal :=
    match song "artists" with
    | JsVal.arr xs => JsVal.str (joinWith ", " xs)
    | v => jsOr v (JsVal.str "")
  { id := jsOr (song "id") JsVal.null
    name := jsOr (song "name") (JsVal.str "")
    artists := artistsText
    artwork := jsOr (song "artwork") JsVal.null
    preview := jsOr (song "preview") JsVal.null
    youtubeUrl := jsOr (song "youtubeUrl") JsVal.null
    cluster_mood := jsOr (song "cluster_mood") JsVal.null
    duration := jsOr (song "duration") JsVal.null
    album := jsOr (song "album") JsVal.null
    release_year := jsNullish (song "release_year") JsVal.null
    source := jsOr (song "source") JsVal.null }

/-! ## Playback fallback guards, from client/src/components/GlobalPlayer.jsx
and client/src/components/RecommendationCard.js -/

/-- hasAudio in GlobalPlayer.jsx: double negation of currentTrack.preview. -/
def hasAudio (currentTrack : Song) : Bool :=
  (currentTrack "preview").truthy

/-- hasYouTube in GlobalPlayer.jsx: not hasAudio, and the track has a
truthy youtubeUrl. -/
def hasYouTube (currentTrack : Song) : Bool :=
  !hasAudio currentTrack && (currentTrack "youtubeUrl").truthy

/-- Render guard of the audio element in RecommendationCard.js: the audio
preview element is mounted exactly when song.preview is truthy. -/
def cardShowsAudio (song : Song) : Bool :=
  (song "preview").truthy

/-- Render guard of the hidden YouTube player in RecommendationCard.js:
mounted exactly when song.preview is falsy and song.youtubeId is truthy. -/
def cardShowsYouTube (song : Song) : Bool :=
  !(song "preview").truthy && (song "youtubeId").truthy

/-! ## Backend recommender model

Modelled from the spec: the repository README lists server/app/recommender.py
(dataset loading, a custom min-max scaler, 150-cluster grouping, cosine
nearest-neighbour search, and the search and recommend operations behind
GET /search and GET /recommend), but that file is absent from the source
tree; only its client callers are present.  The definitions below follow
the specification text (sections 4.2, 4.4, 4.6, 7 and 8). -/

/-- Modelled from the spec: a cleaned Track Record as far as the query
operations need it, identity name plus its normalized feature vector; the
internal index of a track is its position in the list of records. -/
structure Track where
  name : String
  features : List ℚ

/-- Case folding used for case-insensitive matching, performed on the
character list of a string. -/
def lowerChars (s : String) : List Char :=
  s.data.map Char.toLower

/-- Whether the second character list begins with the first. -/
def charsStartWith : List Char → List Char → Bool
  | [], _ => true
  | _ :: _, [] => false
  | a :: as, b :: bs => a == b && charsStartWith as bs

/-- Whether the second character list contains the first as a contiguous
run. -/
def charsContain (needle : List Char) : List Char → Bool
  | [] => needle.isEmpty
  | c :: rest => charsStartWith needle (c :: rest) || charsContain needle rest

/-- Modelled from the spec: exact case-insensitive name match. -/
def nameMatchesCI (t : Track) (q : String) : Bool :=
  lowerChars t.name == lowerChars q

/-- Modelled from the spec: case-insensitive substring name match. -/
def nameContainsCI (t : Track) (q : String) : Bool :=
  charsContain (lowerChars q) (lowerChars t.name)

/-- Modelled from the spec: resolve a query string to the internal index of
the best-matching track, preferring an exact case-insensitive match and
otherwise taking the first substring match; none when no track matches at
all.  The spec leaves the meaning of best substring match open, so the
first match in index order stands in for it; the claims settled here do not
depend on that choice. -/
def resolveTrack (tracks : List Track) (q : String) : Option Nat :=
  match tracks.findIdx? (fun t => nameMatchesCI t q) with
  | some i => some i
  | none => tracks.findIdx? (fun t => nameContainsCI t q)

/-- Modelled from the spec: the recoverable error taxonomy of the query
operations (section 7). -/
inductive RecError where
  | notFound
  | invalidArg

/-- Ordering on (internal index, distance) candidate pairs: strictly
smaller distance first, ties broken by ascending internal index. -/
def distLE (a b : Nat × ℚ) : Prop :=
  a.2 < b.2 ∨ (a.2 = b.2 ∧ a.1 ≤ b.1)

instance : DecidableRel distLE := fun a b => by
  unfold distLE
  infer_instance

instance : IsTrans (Nat × ℚ) distLE where
  trans a b c hab hbc := by
    rcases hab with h | ⟨h1, h2⟩ <;> rcases hbc with g | ⟨g1, g2⟩
    · exact Or.inl (lt_trans h g)
    · exact Or.inl (g1 ▸ h)
    · exact Or.inl (h1 ▸ g)
    · exact Or.inr ⟨h1.trans g1, le_trans h2 g2⟩

instance : IsTotal (Nat × ℚ) distLE where
  total a b := by
    rcases lt_trichotomy a.2 b.2 with h | h | h
    · exact Or.inl (Or.inl h)
    · rcases le_total a.1 b.1 with g | g
      · exact Or.inl (Or.inr ⟨h, g⟩)
      · exact Or.inr (Or.inr ⟨h.symm, g⟩)
    · exact Or.inr (Or.inl h)

/-- Modelled from the spec: the k-nearest-neighbour query of the Similarity
Index over a set of eligible internal indices.  Every eligible candidate is
paired with its distance to the query point, the candidates are ordered by
ascending distance with ties broken by ascending internal index, and the
first k are returned; fewer than k eligible points simply yield all of
them.  The distance function is passed as a parameter: the spec fixes it to
cosine distance over the normalized vectors, whose exact real value
involves square roots and does not affect the ordering, length and
self-exclusion contracts settled here, which hold for every distance
function. -/
def knnQuery (dist : Nat → ℚ) (eligible : List Nat) (k : Nat) : List (Nat × ℚ) :=
  (List.insertionSort distLE (eligible.map (fun i => (i, dist i)))).take k

/-- Modelled from the spec: the recommend operation of the Query
Orchestrator.  It resolves the query string to a track (failing with
NotFoundError when nothing matches), rejects a non-positive neighbour
count, and otherwise queries the Similarity Index for the top_n nearest
neighbours among all indexed tracks other than the resolved one. -/
def recommend (dist : Nat → Nat → ℚ) (tracks : List Track) (q : String)
    (topN : Nat) : Except RecError (Nat × List (Nat × ℚ)) :=
  match resolveTrack tracks q with
  | none => Except.error RecError.notFound
  | some i =>
      if topN = 0 then Except.error RecError.invalidArg
      else Except.ok
        (i, knnQuery (dist i) ((List.range tracks.length).filter (fun j => !(j == i))) topN)

/-- Whether a string is empty or consists only of whitespace, the guard
JavaScript computes as the negation of the trimmed string. -/
def isBlank (s : String) : Bool :=
  s.data.all (fun c => c == ' ' || c == '\t' || c == '\n' || c == '\r')

/-- Modelled from the spec: match quality of a track against a search text,
exact case-insensitive matches first, then case-insensitive name starts,
then other substring matches. -/
def matchQuality (t : Track) (text : String) : Nat :=
  if nameMatchesCI t text then 0
  else if charsStartWith (lowerChars text) (lowerChars t.name) then 1
  else 2

/-- Ordering of search results: better match quality first, then
alphabetically by name. -/
def searchLE (text : String) (a b : Track) : Prop :=
  matchQuality a text < matchQuality b text ∨
    (matchQuality a text = matchQuality b text ∧ a.name ≤ b.name)

instance (text : String) : DecidableRel (searchLE text) := fun a b => by
  unfold searchLE
  infer_instance

/-- Modelled from the spec: the search operation of the Query Orchestrator,
a case-insensitive substring match against track names, ordered by match
quality then alphabetically and capped at the limit; empty or
whitespace-only text yields the empty sequence. -/
def search (tracks : List Track) (text : String) (limit : Nat) : List Track :=
  if isBlank text then []
  else (List.insertionSort (searchLE text)
    (tracks.filter (fun t => nameContainsCI t text))).take limit

/-- Modelled from the spec: the per-feature bounds computed by the
Feature Normalizer fit step, the observed minimum and maximum of the
column. -/
def fitFeature (vals : List ℚ) : ℚ × ℚ :=
  match vals with
  | [] => (0, 0)
  | v :: rest => (rest.foldl min v, rest.foldl max v)

/-- Modelled from the spec: the Feature Normalizer transform step for one
feature value, the min-max rescaling (v - lo) / (hi - lo) clamped to the
unit interval, with zero-variance bounds (hi equal to lo) mapping every
value to 0 instead of dividing by zero. -/
def transform (lo hi v : ℚ) : ℚ :=
  if hi = lo then 0 else min 1 (max 0 ((v - lo) / (hi - lo)))

/-- Modelled from the spec: transform applied componentwise to a raw
feature vector under fitted per-feature bounds. -/
def normalizeVec (params : List (ℚ × ℚ)) (vec : List ℚ) : List ℚ :=
  List.zipWith (fun p v => transform p.1 p.2 v) params vec

/-! ## Witness inputs -/

/-- Witness song with no properties at all. -/
def emptySong : Song := fun _ => JsVal.undef

/-- Witness song with a preview, a YouTube URL and a YouTube id. -/
def playableSong : Song := fun k =>
  if k == "preview" then JsVal.str "https://p.example/clip.m4a"
  else if k == "youtubeUrl" then JsVal.str "https://www.youtube.com/watch?v=abc"
  else if k == "youtubeId" then JsVal.str "abc"
  else JsVal.undef

/-- Witness song whose artwork is present but the empty string. -/
def emptyArtworkSong : Song := fun k =>
  if k == "artwork" then JsVal.str "" else JsVal.undef

/-- Witness song with a truthy artwork and a present preview. -/
def keptFieldsSong : Song := fun k =>
  if k == "artwork" then JsVal.str "cover.png"
  else if k == "preview" then JsVal.str "clip.m4a"
  else JsVal.str "other"

/-- Witness song whose artists field is a truthy non-array non-string
value. -/
def numericArtistsSong : Song := fun k =>
  if k == "artists" then JsVal.num 1 else JsVal.undef

/-- Witness song whose artists field is an array of two strings. -/
def arrayArtistsSong : Song := fun k =>
  if k == "artists" then JsVal.arr [JsVal.str "A", JsVal.str "B"]
  else JsVal.undef

/-- Witness song whose artists field is a plain string. -/
def stringArtistsSong : Song := fun k =>
  if k == "artists" then JsVal.str "Solo" else JsVal.undef

/-- Witness dataset for the recommender model. -/
def demoTracks : List Track :=
  [⟨"Shape of You", [1, 0]⟩, ⟨"Blinding Lights", [0, 1]⟩, ⟨"Halo", [1, 1]⟩]

/-- Witness distance function making all candidates equidistant, which
exercises the index tie-break. -/
def flatDist : Nat → Nat → ℚ := fun _ _ => 0

/-! ## Theorems -/

/-- C2: for every track delivered to the player, the YouTube video
fallback is engaged only when the track has no usable (truthy) audio
preview: a truthy preview forces the audio path and disables the fallback,
and for a track carrying a YouTube URL (respectively a YouTube id in the
recommendation card) the fallback is engaged exactly when the preview is
absent.  Stated for both playback surfaces present in the client, the
GlobalPlayer and the RecommendationCard. -/
theorem youtube_fallback_iff_no_preview (t : Song) :
    (hasAudio t = true → hasYouTube t = false) ∧
    ((t "youtubeUrl").truthy = true → hasYouTube t = !hasAudio t) ∧
    (cardShowsAudio t = true → cardShowsYouTube t = false) ∧
    ((t "youtubeId").truthy = true → cardShowsYouTube t = !cardShowsAudio t) := by
  refine ⟨?_, ?_, ?_, ?_⟩ <;> intro h <;>
    simp_all [hasYouTube, hasAudio, cardShowsYouTube, cardShowsAudio]

/-- Witness for C2 at a concrete track that has a preview, a YouTube URL
and a YouTube id: the fallback stays disengaged on both surfaces. -/
theorem youtube_fallback_iff_no_preview_witness :
    hasYouTube playableSong = false ∧
    hasYouTube playableSong = !hasAudio playableSong ∧
    cardShowsYouTube playableSong = false ∧
    cardShowsYouTube playableSong = !cardShowsAudio playableSong :=
  ⟨(youtube_fallback_iff_no_preview playableSong).1 rfl,
   (youtube_fallback_iff_no_preview playableSong).2.1 rfl,
   (youtube_fallback_iff_no_preview playableSong).2.2.1 rfl,
   (youtube_fallback_iff_no_preview playableSong).2.2.2 rfl⟩

/-- C3: a song with no usable artwork and a missing preview is delivered
with the default placeholder artwork and a null preview; sanitizeSong is a
total function, so producing these defaults cannot raise. -/
theorem sanitizeSong_defaults (song : Song)
    (hart : (song "artwork").truthy = false)
    (hprev : song "preview" = JsVal.undef ∨ song "preview" = JsVal.null) :
    sanitizeSong song "artwork" = JsVal.str DEFAULT_ARTWORK ∧
    sanitizeSong song "preview" = JsVal.null := by
  constructor
  · simp [sanitizeSong, jsOr, hart]
  · rcases hprev with h | h <;> simp [sanitizeSong, jsNullish, h, DEFAULT_PREVIEW]

/-- Witness for C3 at the song with no properties. -/
theorem sanitizeSong_defaults_witness :
    (emptySong "artwork").truthy = false ∧
    emptySong "preview" = JsVal.undef ∧
    sanitizeSong emptySong "artwork" = JsVal.str DEFAULT_ARTWORK ∧
    sanitizeSong emptySong "preview" = JsVal.null :=
  ⟨rfl, rfl,
   (sanitizeSong_defaults emptySong rfl (Or.inl rfl)).1,
   (sanitizeSong_defaults emptySong rfl (Or.inl rfl)).2⟩

/-- C9 counterexample: a song whose artwork is present (the empty string,
which is neither undefined nor null, and which this very codebase produces
when RecommendationCard stores a playlist entry with artwork falling back
to the empty string) still has its artwork replaced by the default
placeholder, so sanitizeSong changes a field whose incoming value is not
missing. -/
theorem sanitizeSong_changes_present_artwork :
    emptyArtworkSong "artwork" = JsVal.str "" ∧
    emptyArtworkSong "artwork" ≠ JsVal.undef ∧
    emptyArtworkSong "artwork" ≠ JsVal.null ∧
    sanitizeSong emptyArtworkSong "artwork" = JsVal.str DEFAULT_ARTWORK ∧
    sanitizeSong emptyArtworkSong "artwork" ≠ emptyArtworkSong "artwork" := by
  refine ⟨rfl, ?_, ?_, rfl, ?_⟩ <;> simp [emptyArtworkSong, sanitizeSong, jsOr,
    JsVal.truthy, DEFAULT_ARTWORK]

/-- C9 as amended: sanitizeSong leaves every field other than artwork and
preview unchanged; preview is replaced (by null) exactly when the incoming
preview is missing, that is undefined or null; artwork is replaced by the
default placeholder exactly when the incoming artwork is falsy, which
covers missing values but also present falsy ones such as the empty
string, and is kept unchanged otherwise. -/
theorem sanitizeSong_frame (song : Song) :
    (∀ k, k ≠ "artwork" → k ≠ "preview" → sanitizeSong song k = song k) ∧
    (song "preview" = JsVal.undef ∨ song "preview" = JsVal.null →
      sanitizeSong song "preview" = JsVal.null) ∧
    (song "preview" ≠ JsVal.undef → song "preview" ≠ JsVal.null →
      sanitizeSong song "preview" = song "preview") ∧
    ((song "artwork").truthy = false →
      sanitizeSong song "artwork" = JsVal.str DEFAULT_ARTWORK) ∧
    ((song "artwork").truthy = true →
      sanitizeSong song "artwork" = song "artwork") := by
  refine ⟨?_, ?_, ?_, ?_, ?_⟩
  · intro k hk1 hk2
    have h1 : (k == "artwork") = false := by simpa using hk1
    have h2 : (k == "preview") = false := by simpa using hk2
    simp [sanitizeSong, h1, h2]
  · intro h
    rcases h with h | h <;> simp [sanitizeSong, jsNullish, h, DEFAULT_PREVIEW]
  · intro h1 h2
    cases hv : song "preview" with
    | undef => exact absurd hv h1
    | null => exact absurd hv h2
    | str s => simp [sanitizeSong, jsNullish, hv]
    | num n => simp [sanitizeSong, jsNullish, hv]
    | bool b => simp [sanitizeSong, jsNullish, hv]
    | arr xs => simp [sanitizeSong, jsNullish, hv]
  · intro h
    simp [sanitizeSong, jsOr, h]
  · intro h
    simp [sanitizeSong, jsOr, h]

/-- Witness for the amended C9, discharging each hypothesis at concrete
songs: an untouched third field, a missing preview nulled, a present
preview kept, a falsy artwork defaulted, a truthy artwork kept. -/
theorem sanitizeSong_frame_witness :
    sanitizeSong keptFieldsSong "name" = keptFieldsSong "name" ∧
    sanitizeSong emptySong "preview" = JsVal.null ∧
    sanitizeSong keptFieldsSong "preview" = keptFieldsSong "preview" ∧
    sanitizeSong emptySong "artwork" = JsVal.str DEFAULT_ARTWORK ∧
    sanitizeSong keptFieldsSong "artwork" = keptFieldsSong "artwork" :=
  ⟨(sanitizeSong_frame keptFieldsSong).1 "name" (by decide) (by decide),
   (sanitizeSong_frame emptySong).2.1 (Or.inl rfl),
   (sanitizeSong_frame keptFieldsSong).2.2.1 (by simp [keptFieldsSong])
     (by simp [keptFieldsSong]),
   (sanitizeSong_frame emptySong).2.2.2.1 rfl,
   (sanitizeSong_frame keptFieldsSong).2.2.2.2 rfl⟩

/-- Falling back through or-else to a non-undefined default never yields
undefined. -/
theorem jsOr_ne_undef (a b : JsVal) (hb : b ≠ JsVal.undef) :
    jsOr a b ≠ JsVal.undef := by
  unfold jsOr
  split
  · intro h
    subst h
    simp [JsVal.truthy] at *
  · exact hb

/-- Nullish coalescing with a non-undefined default never yields
undefined. -/
theorem jsNullish_ne_undef (a b : JsVal) (hb : b ≠ JsVal.undef) :
    jsNullish a b ≠ JsVal.undef := by
  cases a <;>
    first
    | exact hb
    | (intro h; exact JsVal.noConfusion h)

/-- C10 counterexample: a song whose artists field is the number 1, a
truthy value that is neither an array nor a string, flows through
buildSongPayload unchanged, so the payload artists field is not a string
and in particular does not become the empty string. -/
theorem buildSongPayload_artists_not_string :
    (buildSongPayload numericArtistsSong).artists = JsVal.num 1 ∧
    (buildSongPayload numericArtistsSong).artists.isStr = false ∧
    (buildSongPayload numericArtistsSong).artists ≠ JsVal.str "" := by
  refine ⟨rfl, rfl, ?_⟩
  intro h
  exact JsVal.noConfusion h

/-- C10 as amended: buildSongPayload yields a payload whose artists field
is a string whenever the incoming artists value is an array (joined with a
comma-space separator), a string (kept as is), or falsy (replaced by the
empty string); a truthy non-array non-string artists value is kept
unchanged rather than becoming the empty string.  Every one of the eleven
payload fields is present by construction and never undefined: missing
values become null or the empty string. -/
theorem buildSongPayload_fields (song : Song) :
    (∀ xs, song "artists" = JsVal.arr xs →
      (buildSongPayload song).artists = JsVal.str (joinWith ", " xs)) ∧
    (∀ s, song "artists" = JsVal.str s →
      (buildSongPayload song).artists = JsVal.str s) ∧
    ((song "artists").isArr = false → (song "artists").truthy = false →
      (buildSongPayload song).artists = JsVal.str "") ∧
    ((song "artists").isArr = false → (song "artists").truthy = true →
      (buildSongPayload song).artists = song "artists") ∧
    ((buildSongPayload song).id ≠ JsVal.undef ∧
     (buildSongPayload song).name ≠ JsVal.undef ∧
     (buildSongPayload song).artists ≠ JsVal.undef ∧
     (buildSongPayload song).artwork ≠ JsVal.undef ∧
     (buildSongPayload song).preview ≠ JsVal.undef ∧
     (buildSongPayload song).youtubeUrl ≠ JsVal.undef ∧
     (buildSongPayload song).cluster_mood ≠ JsVal.undef ∧
     (buildSongPayload song).duration ≠ JsVal.undef ∧
     (buildSongPayload song).album ≠ JsVal.undef ∧
     (buildSongPayload song).release_year ≠ JsVal.undef ∧
     (buildSongPayload song).source ≠ JsVal.undef) := by
  refine ⟨?_, ?_, ?_, ?_, ?_⟩
  · intro xs h
    simp [buildSongPayload, h]
  · intro s h
    by_cases hs : s = ""
    · subst hs
      simp [buildSongPayload, h, jsOr, JsVal.truthy]
    · have : (s == "") = false := by simpa using hs
      simp [buildSongPayload, h, jsOr, JsVal.truthy, this]
  · intro h1 h2
    cases hv : song "artists" <;>
      simp_all [buildSongPayload, jsOr, JsVal.isArr, JsVal.truthy]
  · intro h1 h2
    cases hv : song "artists" <;>
      simp_all [buildSongPayload, jsOr, JsVal.isArr, JsVal.truthy]
  · have hart : (buildSongPayload song).artists ≠ JsVal.undef := by
      unfold buildSongPayload
      cases song "artists" <;>
        first
        | exact jsOr_ne_undef _ _ (fun h => JsVal.noConfusion h)
        | (intro h; exact JsVal.noConfusion h)
    refine ⟨?_, ?_, hart, ?_, ?_, ?_, ?_, ?_, ?_, ?_, ?_⟩ <;>
      first
      | exact jsOr_ne_undef _ _ (fun h => JsVal.noConfusion h)
      | exact jsNullish_ne_undef _ _ (fun h => JsVal.noConfusion h)

/-- Witness for the amended C10, discharging each hypothesis at concrete
songs: an array artists joined, a string artists kept, a missing artists
becoming the empty string, the numeric artists kept unchanged, and a
never-undefined field. -/
theorem buildSongPayload_fields_witness :
    (buildSongPayload arrayArtistsSong).artists
      = JsVal.str (joinWith ", " [JsVal.str "A", JsVal.str "B"]) ∧
    (buildSongPayload stringArtistsSong).artists = JsVal.str "Solo" ∧
    (buildSongPayload emptySong).artists = JsVal.str "" ∧
    (buildSongPayload numericArtistsSong).artists = numericArtistsSong "artists" ∧
    (buildSongPayload emptySong).id ≠ JsVal.undef :=
  ⟨(buildSongPayload_fields arrayArtistsSong).1 [JsVal.str "A", JsVal.str "B"] rfl,
   (buildSongPayload_fields stringArtistsSong).2.1 "Solo" rfl,
   (buildSongPayload_fields emptySong).2.2.1 rfl rfl,
   (buildSongPayload_fields numericArtistsSong).2.2.2.1 rfl rfl,
   (buildSongPayload_fields emptySong).2.2.2.2.1⟩

/-- Resolution fails exactly when no track matches the query either
exactly (case-insensitively) or as a substring. -/
theorem resolveTrack_eq_none (tracks : List Track) (q : String)
    (h : ∀ t ∈ tracks, nameMatchesCI t q = false ∧ nameContainsCI t q = false) :
    resolveTrack tracks q = none := by
  have h1 : tracks.findIdx? (fun t => nameMatchesCI t q) = none :=
    List.findIdx?_eq_none_iff.mpr (fun t ht => (h t ht).1)
  have h2 : tracks.findIdx? (fun t => nameContainsCI t q) = none :=
    List.findIdx?_eq_none_iff.mpr (fun t ht => (h t ht).2)
  unfold resolveTrack
  rw [h1, h2]

/-- A successful resolution returns an index inside the track list. -/
theorem resolveTrack_lt_length {tracks : List Track} {q : String} {i : Nat}
    (h : resolveTrack tracks q = some i) : i < tracks.length := by
  unfold resolveTrack at h
  cases hE : tracks.findIdx? (fun t => nameMatchesCI t q) with
  | some j =>
      rw [hE] at h
      cases h
      exact (List.findIdx?_eq_some_iff_findIdx_eq.mp hE).1
  | none =>
      rw [hE] at h
      exact (List.findIdx?_eq_some_iff_findIdx_eq.mp h).1

/-- Inversion of a successful recommend call: the query resolved to the
returned index, the neighbour count was positive, and the result list is
the nearest-neighbour query over all other indexed tracks. -/
theorem recommend_ok_elim {dist : Nat → Nat → ℚ} {tracks : List Track}
    {q : String} {topN : Nat} {i : Nat} {res : List (Nat × ℚ)}
    (h : recommend dist tracks q topN = Except.ok (i, res)) :
    resolveTrack tracks q = some i ∧ topN ≠ 0 ∧
    res = knnQuery (dist i)
      ((List.range tracks.length).filter (fun j => !(j == i))) topN := by
  unfold recommend at h
  cases hres : resolveTrack tracks q with
  | none =>
      rw [hres] at h
      exact absurd h (by simp)
  | some j =>
      rw [hres] at h
      dsimp only at h
      by_cases ht : topN = 0
      · rw [if_pos ht] at h
        exact absurd h (by simp)
      · rw [if_neg ht] at h
        have hp := Except.ok.inj h
        rw [Prod.mk.injEq] at hp
        obtain ⟨h1, h2⟩ := hp
        subst h1
        exact ⟨rfl, ht, h2.symm⟩

/-- C1: a recommend call whose query string matches no indexed track,
neither exactly (case-insensitively) nor as a substring, fails with
NotFoundError and never completes as a success, in particular never as a
success carrying an empty recommendation list. -/
theorem recommend_unmatched_fails (dist : Nat → Nat → ℚ) (tracks : List Track)
    (q : String) (topN : Nat)
    (h : ∀ t ∈ tracks, nameMatchesCI t q = false ∧ nameContainsCI t q = false) :
    recommend dist tracks q topN = Except.error RecError.notFound ∧
    ∀ i res, recommend dist tracks q topN ≠ Except.ok (i, res) := by
  have hr : resolveTrack tracks q = none := resolveTrack_eq_none tracks q h
  constructor
  · unfold recommend
    rw [hr]
  · intro i res hcontra
    obtain ⟨h1, _, _⟩ := recommend_ok_elim hcontra
    rw [hr] at h1
    exact Option.noConfusion h1

/-- Witness for C1 at the end-to-end scenario query of the spec: the query
string matches nothing in the demo dataset and the call fails with
NotFoundError. -/
theorem recommend_unmatched_fails_witness :
    (∀ t ∈ demoTracks, nameMatchesCI t "nonexistent track xyz" = false ∧
      nameContainsCI t "nonexistent track xyz" = false) ∧
    recommend flatDist demoTracks "nonexistent track xyz" 5
      = Except.error RecError.notFound :=
  ⟨by decide,
   (recommend_unmatched_fails flatDist demoTracks "nonexistent track xyz" 5
     (by decide)).1⟩

/-- Dropping one index from a range shortens it by exactly one. -/
theorem length_filter_ne_range (n i : Nat) (h : i < n) :
    ((List.range n).filter (fun j => !(j == i))).length = n - 1 := by
  induction n with
  | zero => exact absurd h (Nat.not_lt_zero i)
  | succ m ih =>
    rw [List.range_succ, List.filter_append, List.length_append]
    by_cases hc : i < m
    · have hm : (m == i) = false := by
        have : m ≠ i := by omega
        simpa using this
      rw [ih hc]
      simp [hm]
      omega
    · have hi : i = m := by omega
      subst hi
      have hfil : List.filter (fun j => !(j == i)) (List.range i) = List.range i := by
        apply List.filter_eq_self.mpr
        intro a ha
        have : a < i := List.mem_range.mp ha
        have : a ≠ i := by omega
        simpa using this
      rw [hfil]
      simp

/-- The nearest-neighbour query over candidates with pairwise distinct
internal indices is pairwise strictly ordered: strictly increasing
distance, or equal distance and strictly increasing internal index. -/
theorem knnQuery_pairwise_strict (dist : Nat → ℚ) (eligible : List Nat)
    (k : Nat) (hnd : eligible.Nodup) :
    List.Pairwise (fun a b : Nat × ℚ => a.2 < b.2 ∨ (a.2 = b.2 ∧ a.1 < b.1))
      (knnQuery dist eligible k) := by
  have hsorted : List.Sorted distLE
      (List.insertionSort distLE (eligible.map (fun i => (i, dist i)))) :=
    List.sorted_insertionSort distLE _
  have hsub : (knnQuery dist eligible k).Sublist
      (List.insertionSort distLE (eligible.map (fun i => (i, dist i)))) :=
    List.take_sublist k _
  have hpw : List.Pairwise distLE (knnQuery dist eligible k) :=
    List.Pairwise.sublist hsub hsorted
  have hinj : Function.Injective (fun i : Nat => (i, dist i)) := by
    intro a b hab
    exact congrArg Prod.fst hab
  have hmapnd : (eligible.map (fun i => (i, dist i))).Nodup := hnd.map hinj
  have hsortnd :
      (List.insertionSort distLE (eligible.map (fun i => (i, dist i)))).Nodup :=
    ((List.perm_insertionSort distLE _).symm).nodup hmapnd
  have hknnnd : (knnQuery dist eligible k).Nodup := hsub.nodup hsortnd
  refine List.Pairwise.imp_of_mem ?_ (hpw.and hknnnd)
  intro a b ha hb hab
  obtain ⟨hle, hne⟩ := hab
  rcases hle with hlt | ⟨heq, hle1⟩
  · exact Or.inl hlt
  · refine Or.inr ⟨heq, lt_of_le_of_ne hle1 ?_⟩
    intro hfst
    exact hne (Prod.ext hfst heq)

/-- C5: every successful recommend result list is sorted by non-decreasing
distance, and entries at identical distance appear in strictly ascending
order of internal track index (stated as a pairwise strict ordering, which
subsumes both conjuncts of the claim). -/
theorem recommend_sorted (dist : Nat → Nat → ℚ) (tracks : List Track)
    (q : String) (topN : Nat) (i : Nat) (res : List (Nat × ℚ))
    (h : recommend dist tracks q topN = Except.ok (i, res)) :
    List.Pairwise (fun a b : Nat × ℚ => a.2 < b.2 ∨ (a.2 = b.2 ∧ a.1 < b.1))
      res := by
  obtain ⟨hres, ht, hk⟩ := recommend_ok_elim h
  subst hk
  exact knnQuery_pairwise_strict _ _ _
    ((List.nodup_range tracks.length).filter _)

/-- Witness for C5 at a concrete call on the demo dataset with the flat
distance, exercising the index tie-break. -/
theorem recommend_sorted_witness :
    recommend flatDist demoTracks "halo" 5
      = Except.ok (2, [(0, (0 : ℚ)), (1, 0)]) ∧
    List.Pairwise (fun a b : Nat × ℚ => a.2 < b.2 ∨ (a.2 = b.2 ∧ a.1 < b.1))
      [(0, (0 : ℚ)), (1, 0)] :=
  ⟨rfl, recommend_sorted flatDist demoTracks "halo" 5 2 [(0, 0), (1, 0)] rfl⟩

/-- C6: a successful recommend call never returns the queried track itself
in its own result list. -/
theorem recommend_excludes_queried (dist : Nat → Nat → ℚ)
    (tracks : List Track) (q : String) (topN : Nat) (i : Nat)
    (res : List (Nat × ℚ))
    (h : recommend dist tracks q topN = Except.ok (i, res)) :
    i ∉ res.map Prod.fst := by
  obtain ⟨hres, ht, hk⟩ := recommend_ok_elim h
  subst hk
  intro hmem
  obtain ⟨x, hx, hfst⟩ := List.mem_map.mp hmem
  unfold knnQuery at hx
  have hx2 := (List.take_sublist _ _).subset hx
  have hx3 := ((List.perm_insertionSort distLE _).mem_iff).mp hx2
  obtain ⟨a, haelig, ha⟩ := List.mem_map.mp hx3
  have ha1 : a = i := by rw [← hfst, ← ha]
  have hfil := (List.mem_filter.mp haelig).2
  rw [ha1] at hfil
  simp at hfil

/-- Witness for C6 at a concrete call on the demo dataset: the resolved
index 2 does not occur among the returned indices. -/
theorem recommend_excludes_queried_witness :
    recommend flatDist demoTracks "halo" 5
      = Except.ok (2, [(0, (0 : ℚ)), (1, 0)]) ∧
    2 ∉ ([(0, (0 : ℚ)), (1, 0)]).map Prod.fst :=
  ⟨rfl, recommend_excludes_queried flatDist demoTracks "halo" 5 2
    [(0, 0), (1, 0)] rfl⟩

/-- C7: a successful recommend call returns exactly the minimum of the
requested neighbour count and the number of indexed tracks other than the
queried one; in particular at most top_n results, and all eligible
candidates when there are fewer than top_n, without this being an error. -/
theorem recommend_result_length (dist : Nat → Nat → ℚ) (tracks : List Track)
    (q : String) (topN : Nat) (i : Nat) (res : List (Nat × ℚ))
    (h : recommend dist tracks q topN = Except.ok (i, res)) :
    res.length = min topN (tracks.length - 1) := by
  obtain ⟨hres, ht, hk⟩ := recommend_ok_elim h
  have hi := resolveTrack_lt_length hres
  subst hk
  unfold knnQuery
  rw [List.length_take, List.length_insertionSort, List.length_map,
    length_filter_ne_range tracks.length i hi]

/-- Witness for C7 at a concrete call on the demo dataset: three indexed
tracks, five requested neighbours, exactly two results. -/
theorem recommend_result_length_witness :
    recommend flatDist demoTracks "halo" 5
      = Except.ok (2, [(0, (0 : ℚ)), (1, 0)]) ∧
    ([(0, (0 : ℚ)), (1, 0)]).length = min 5 (demoTracks.length - 1) :=
  ⟨rfl, recommend_result_length flatDist demoTracks "halo" 5 2
    [(0, 0), (1, 0)] rfl⟩

/-- C4: a search call with empty or whitespace-only text returns the empty
sequence, and a search call matching no track name returns the empty
sequence; search is a total function into lists, so neither case raises an
error. -/
theorem search_blank_or_unmatched_empty (tracks : List Track) (text : String)
    (limit : Nat) :
    (isBlank text = true → search tracks text limit = []) ∧
    ((∀ t ∈ tracks, nameContainsCI t text = false) →
      search tracks text limit = []) := by
  constructor
  · intro h
    simp [search, h]
  · intro h
    have hfil : tracks.filter (fun t => nameContainsCI t text) = [] := by
      apply List.filter_eq_nil_iff.mpr
      intro a ha
      simp [h a ha]
    unfold search
    split
    · rfl
    · rw [hfil]
      simp [List.insertionSort]

/-- Witness for C4 at a whitespace-only query and at a query matching no
demo track. -/
theorem search_blank_or_unmatched_empty_witness :
    isBlank "   " = true ∧
    search demoTracks "   " 10 = [] ∧
    (∀ t ∈ demoTracks, nameContainsCI t "zzz" = false) ∧
    search demoTracks "zzz" 10 = [] :=
  ⟨rfl,
   (search_blank_or_unmatched_empty demoTracks "   " 10).1 rfl,
   by decide,
   (search_blank_or_unmatched_empty demoTracks "zzz" 10).2 (by decide)⟩

/-- C8: transform maps a value under zero-variance bounds (hi equal to lo)
to 0 rather than dividing by zero, always yields a value in the unit
interval, and consequently every component of every normalized feature
vector lies in the unit interval; transform is a total function, so no
division-by-zero error can be raised. -/
theorem transform_bounds (lo hi v : ℚ) (params : List (ℚ × ℚ))
    (vec : List ℚ) :
    (hi = lo → transform lo hi v = 0) ∧
    (0 ≤ transform lo hi v ∧ transform lo hi v ≤ 1) ∧
    (∀ c ∈ normalizeVec params vec, 0 ≤ c ∧ c ≤ 1) := by
  have hunit : ∀ a b w : ℚ, 0 ≤ transform a b w ∧ transform a b w ≤ 1 := by
    intro a b w
    unfold transform
    split
    · norm_num
    · exact ⟨le_min (by norm_num) (le_max_left 0 _), min_le_left 1 _⟩
  refine ⟨?_, hunit lo hi v, ?_⟩
  · intro h
    simp [transform, h]
  · intro c hc
    unfold normalizeVec at hc
    induction params generalizing vec with
    | nil => simp at hc
    | cons p ps ih =>
      cases vec with
      | nil => simp at hc
      | cons w ws =>
        rw [List.zipWith_cons_cons] at hc
        rcases List.mem_cons.mp hc with h | h
        · rw [h]
          exact hunit p.1 p.2 w
        · exact ih ws h

/-- Witness for C8 at concrete bounds: zero-variance bounds map 5 to 0,
and the single component of a concretely normalized vector lies in the
unit interval. -/
theorem transform_bounds_witness :
    transform 2 2 5 = 0 ∧
    (0 ≤ transform 0 2 1 ∧ transform 0 2 1 ≤ 1) ∧
    (0 ≤ transform 0 2 1 ∧ transform 0 2 1 ≤ 1) :=
  ⟨(transform_bounds 2 2 5 [] []).1 rfl,
   (transform_bounds 0 2 1 [] []).2.1,
   (transform_bounds 0 0 0 [(0, 2)] [1]).2.2 (transform 0 2 1)
     (by simp [normalizeVec])⟩
